import Mathlib

/-!
# Verification of the `apiauth` request signing and verification package

Shallow embedding of the Go package `apiauth` (files `apiauth.go`):
canonical-string construction, HMAC-SHA1 signature computation, the
`Authorization` header codec, header sufficiency checking, and the
`Sign` / `SignWithMethod` / `Verify` entry points with their
backward-compatible dual-verification logic.

Go strings are modelled as `List Char`; byte slices as `List Nat`
(each element a byte value `< 256`); machine words in SHA-1 as `Nat`
reduced `% 2 ^ 32`.  The in-place mutation performed by `Sign` on the
request is modelled by returning the resulting request state next to
the error outcome.
-/

set_option maxRecDepth 4096

namespace Apiauth

/-- Go `string`, modelled as a list of characters.  Every string the
package manipulates at a byte level (the `APIAuth ` prefix, the `:`
separator) is ASCII, where Go's byte indexing and splitting coincide
with character indexing and splitting. -/
abbrev GoStr := List Char

/-- An `http.Request` restricted to the parts the package reads or
writes: the method, `r.URL.EscapedPath()`, `r.URL.RawQuery`, whether
`r.Body != nil`, and the header values returned by `r.Header.Get` for
the four header names the code consults (`Get` returns `""` for an
absent header, which the code never distinguishes from an empty one).
`otherHeaders` stands for every header entry the package never touches,
so that the frame property of `Sign` is expressible. -/
structure Request where
  method : GoStr
  escapedPath : GoStr
  rawQuery : GoStr
  hasBody : Bool
  dateHeader : GoStr
  contentTypeHeader : GoStr
  contentMD5Header : GoStr
  authorizationHeader : GoStr
  otherHeaders : List (GoStr × GoStr)
deriving DecidableEq, Repr

/-- The distinct error values returned by the package (`fmt.Errorf`
messages, modelled as tags; `malformedHeader` carries the offending
header value exactly as the Go message interpolates it). -/
inductive ApiError where
  | missingDate
  | missingContentType
  | missingContentMD5
  | authorizationAlreadyPresent
  | authorizationMissing
  | malformedHeader (header : GoStr)
  | signatureMismatch
deriving DecidableEq, Repr

/-- Go `strings.Split(s, sep)` for a single-character separator: the
list of maximal runs between occurrences of `sep`, empty runs
preserved; `n` separators yield `n + 1` pieces. -/
def goSplit (sep : Char) : GoStr → List GoStr
  | [] => [[]]
  | c :: rest =>
    match goSplit sep rest with
    | [] => [[]]
    | t :: ts => if c = sep then [] :: t :: ts else (c :: t) :: ts

/-- Go `strings.ToUpper` restricted to ASCII (the only characters an
HTTP method contains). -/
def goToUpper (s : GoStr) : GoStr := s.map Char.toUpper

/-- Go `strings.Join(elems, sep)`: the elements concatenated with the
separator between consecutive elements. -/
def goJoin (elems : List GoStr) (sep : GoStr) : GoStr :=
  match elems with
  | [] => []
  | [s] => s
  | s :: rest => s ++ sep ++ goJoin rest sep

/-- Embeds `sufficientHeaders(r)`: `Date` must be present; when a body
is present, `Content-Type` and then `Content-MD5` must also be present.
Here `none` is success (Go `nil`). -/
def sufficientHeaders (r : Request) : Option ApiError :=
  if r.dateHeader = [] then some .missingDate
  else if r.hasBody then
    if r.contentTypeHeader = [] then some .missingContentType
    else if r.contentMD5Header = [] then some .missingContentMD5
    else none
  else none

/-- Embeds `CanonicalString(r)`: joins
`Content-Type, Content-MD5, URI, Date` with commas, where the URI is
the escaped path (defaulting to `/` when empty) with `?rawQuery`
appended iff the raw query is non-empty. -/
def CanonicalString (r : Request) : GoStr :=
  let uri0 := if r.escapedPath = [] then "/".toList else r.escapedPath
  let uri := if r.rawQuery ≠ [] then uri0 ++ "?".toList ++ r.rawQuery else uri0
  goJoin [r.contentTypeHeader, r.contentMD5Header, uri, r.dateHeader] ",".toList

/-- Embeds `CanonicalStringWithMethod(r)`: joins the upper-cased method
and `CanonicalString(r)` with a comma. -/
def CanonicalStringWithMethod (r : Request) : GoStr :=
  goJoin [goToUpper r.method, CanonicalString r] ",".toList

/-- Embeds `Parse(header)`: requires the prefix `APIAuth ` and exactly
two non-empty `:`-separated tokens after it, returning `(id, sig)`. -/
def Parse (header : GoStr) : Except ApiError (GoStr × GoStr) :=
  if "APIAuth ".toList.isPrefixOf header then
    match goSplit ':' (header.drop 8) with
    | [id, sig] =>
      if id = [] ∨ sig = [] then .error (.malformedHeader header)
      else .ok (id, sig)
    | _ => .error (.malformedHeader header)
  else .error (.malformedHeader header)

/-! ## Signature engine: HMAC-SHA1 and standard base64

The Go code calls `crypto/hmac` with `crypto/sha1` and
`encoding/base64.StdEncoding`.  These primitives are embedded here
executably over byte lists (`List Nat`, each element `< 256`), with
32-bit words as `Nat` reduced `% 2 ^ 32`. -/

/-- The UTF-8 bytes of one character (Go `[]byte(string)` encodes
UTF-8). -/
def utf8EncodeChar (c : Char) : List Nat :=
  let n := c.toNat
  if n < 0x80 then [n]
  else if n < 0x800 then [0xC0 + n / 64, 0x80 + n % 64]
  else if n < 0x10000 then [0xE0 + n / 4096, 0x80 + n / 64 % 64, 0x80 + n % 64]
  else [0xF0 + n / 0x40000, 0x80 + n / 4096 % 64, 0x80 + n / 64 % 64, 0x80 + n % 64]

/-- Go `[]byte(s)`: the UTF-8 byte sequence of a string. -/
def utf8Bytes (s : GoStr) : List Nat := s.flatMap utf8EncodeChar

/-- Left rotation of a 32-bit word. -/
def rotl (s x : Nat) : Nat := (x * 2 ^ s + x / 2 ^ (32 - s)) % 2 ^ 32

/-- Big-endian byte rendering of `n` in exactly `k` bytes. -/
def bytesBE : Nat → Nat → List Nat
  | 0, _ => []
  | k + 1, n => bytesBE k (n / 256) ++ [n % 256]

/-- Big-endian 32-bit words of a byte list (length a multiple of 4). -/
def wordsOfBytes : List Nat → List Nat
  | b0 :: b1 :: b2 :: b3 :: rest =>
    (((b0 * 256 + b1) * 256 + b2) * 256 + b3) :: wordsOfBytes rest
  | _ => []

/-- SHA-1 message-schedule extension: prepend `k` further words to the
reversed schedule `rw` (most recent word first), each
`rotl1 (w16 xor w14 xor w8 xor w3)` counted from the end. -/
def sha1Extend : Nat → List Nat → List Nat
  | 0, rw => rw
  | k + 1, rw =>
    let nw := rotl 1 (Nat.xor (Nat.xor (rw.getD 2 0) (rw.getD 7 0))
                              (Nat.xor (rw.getD 13 0) (rw.getD 15 0)))
    sha1Extend k (nw :: rw)

/-- The SHA-1 round function for round `t`. -/
def sha1F (t b c d : Nat) : Nat :=
  if t < 20 then Nat.lor (Nat.land b c) (Nat.land (2 ^ 32 - 1 - b) d)
  else if t < 40 then Nat.xor (Nat.xor b c) d
  else if t < 60 then Nat.lor (Nat.lor (Nat.land b c) (Nat.land b d)) (Nat.land c d)
  else Nat.xor (Nat.xor b c) d

/-- The SHA-1 round constant for round `t`. -/
def sha1K (t : Nat) : Nat :=
  if t < 20 then 0x5A827999
  else if t < 40 then 0x6ED9EBA1
  else if t < 60 then 0x8F1BBCDC
  else 0xCA62C1D6

/-- The 80 SHA-1 rounds over the word schedule `ws`, starting at round
index `t`. -/
def sha1Rounds : Nat → List Nat → Nat × Nat × Nat × Nat × Nat → Nat × Nat × Nat × Nat × Nat
  | _, [], st => st
  | t, wi :: ws, (a, b, c, d, e) =>
    let temp := (rotl 5 a + sha1F t b c d + e + sha1K t + wi) % 2 ^ 32
    sha1Rounds (t + 1) ws (temp, a, rotl 30 b, c, d)

/-- Split a byte list into maximal 64-byte chunks: `acc` holds the
current chunk reversed, `k` its remaining capacity.  Called on a list
whose length is a positive multiple of 64 with `acc = []`, `k = 64`,
it returns the consecutive 64-byte blocks. -/
def chunks64 : List Nat → List Nat → Nat → List (List Nat)
  | [], acc, _ => [acc.reverse]
  | b :: rest, acc, 0 => acc.reverse :: chunks64 rest [b] 63
  | b :: rest, acc, k + 1 => chunks64 rest (b :: acc) k

/-- One SHA-1 compression: schedule the 64-byte chunk into 80 words,
run the rounds, add the result into the hash words. -/
def sha1Block (chunk : List Nat) : Nat × Nat × Nat × Nat × Nat → Nat × Nat × Nat × Nat × Nat
  | (h0, h1, h2, h3, h4) =>
    let w := (sha1Extend 64 (wordsOfBytes chunk).reverse).reverse
    match sha1Rounds 0 w (h0, h1, h2, h3, h4) with
    | (a, b, c, d, e) =>
      ((h0 + a) % 2 ^ 32, (h1 + b) % 2 ^ 32, (h2 + c) % 2 ^ 32,
       (h3 + d) % 2 ^ 32, (h4 + e) % 2 ^ 32)

/-- SHA-1 padding: a `0x80` byte, zeros to 56 mod 64, then the bit
length as 8 big-endian bytes. -/
def sha1Pad (msg : List Nat) : List Nat :=
  msg ++ 0x80 :: List.replicate ((119 - msg.length % 64) % 64) 0 ++ bytesBE 8 (8 * msg.length)

/-- The 20-byte SHA-1 digest of a byte list. -/
def sha1 (msg : List Nat) : List Nat :=
  match (chunks64 (sha1Pad msg) [] 64).foldl (fun h c => sha1Block c h)
      (0x67452301, 0xEFCDAB89, 0x98BADCFE, 0x10325476, 0xC3D2E1F0) with
  | (h0, h1, h2, h3, h4) =>
    bytesBE 4 h0 ++ bytesBE 4 h1 ++ bytesBE 4 h2 ++ bytesBE 4 h3 ++ bytesBE 4 h4

/-- HMAC-SHA1 (Go `hmac.New(sha1.New, key)`): the key is hashed when
longer than the 64-byte block, zero-padded to the block size, and the
digest is `sha1(opad ++ sha1(ipad ++ msg))`. -/
def hmacSha1 (key msg : List Nat) : List Nat :=
  let k0 := if 64 < key.length then sha1 key else key
  let k := k0 ++ List.replicate (64 - k0.length) 0
  sha1 (k.map (Nat.xor 0x5C) ++ sha1 (k.map (Nat.xor 0x36) ++ msg))

/-- The standard base64 alphabet (`encoding/base64.StdEncoding`). -/
def b64Alphabet : GoStr :=
  "ABCDEFGHIJKLMNOPQRSTUVWXYZabcdefghijklmnopqrstuvwxyz0123456789+/".toList

/-- The base64 character for a 6-bit value. -/
def b64Char (n : Nat) : Char := b64Alphabet.getD n '='

/-- Standard base64 encoding with `=` padding. -/
def base64Encode : List Nat → GoStr
  | [] => []
  | [b1] => [b64Char (b1 / 4), b64Char (b1 % 4 * 16), '=', '=']
  | [b1, b2] => [b64Char (b1 / 4), b64Char (b1 % 4 * 16 + b2 / 16), b64Char (b2 % 16 * 4), '=']
  | b1 :: b2 :: b3 :: rest =>
    b64Char (b1 / 4) :: b64Char (b1 % 4 * 16 + b2 / 16) ::
      b64Char (b2 % 16 * 4 + b3 / 64) :: b64Char (b3 % 64) :: base64Encode rest

/-- Embeds `Compute(canonicalString, secret)`: base64 of the HMAC-SHA1 of the
canonical string keyed by the secret. -/
def Compute (canonicalString secret : GoStr) : GoStr :=
  base64Encode (hmacSha1 (utf8Bytes secret) (utf8Bytes canonicalString))

/-- Embeds `VerifySignature(sig, canonicalString, secret)`: exact equality
with the recomputed signature. -/
def VerifySignature (sig canonicalString secret : GoStr) : Bool :=
  Compute canonicalString secret == sig

/-- The `Authorization` value `fmt.Sprintf("APIAuth %s:%s", accessID, sig)`. -/
def authHeaderValue (accessID sig : GoStr) : GoStr :=
  "APIAuth ".toList ++ (accessID ++ ':' :: sig)

/-- Embeds `Sign(r, accessID, secret)`: the error outcome paired with the
request state afterwards (the Go function mutates `r` in place; on any
error it returns before touching the request). -/
def Sign (r : Request) (accessID secret : GoStr) : Except ApiError Unit × Request :=
  match sufficientHeaders r with
  | some e => (.error e, r)
  | none =>
    if r.authorizationHeader ≠ [] then (.error .authorizationAlreadyPresent, r)
    else
      let sig := Compute (CanonicalString r) secret
      (.ok (), { r with authorizationHeader := authHeaderValue accessID sig })

/-- Embeds `SignWithMethod(r, accessID, secret)`: as `Sign`, but the canonical
string includes the request method. -/
def SignWithMethod (r : Request) (accessID secret : GoStr) : Except ApiError Unit × Request :=
  match sufficientHeaders r with
  | some e => (.error e, r)
  | none =>
    if r.authorizationHeader ≠ [] then (.error .authorizationAlreadyPresent, r)
    else
      let sig := Compute (CanonicalStringWithMethod r) secret
      (.ok (), { r with authorizationHeader := authHeaderValue accessID sig })

/-- Embeds `Verify(r, secret)`: header sufficiency, presence of
`Authorization`, `Parse`, then acceptance iff the signature matches the
legacy canonical string or the method-bound one. -/
def Verify (r : Request) (secret : GoStr) : Except ApiError Unit :=
  match sufficientHeaders r with
  | some e => .error e
  | none =>
    if r.authorizationHeader = [] then .error .authorizationMissing
    else
      match Parse r.authorizationHeader with
      | .error e => .error e
      | .ok (_, sig) =>
        if VerifySignature sig (CanonicalString r) secret
            || VerifySignature sig (CanonicalStringWithMethod r) secret then .ok ()
        else .error .signatureMismatch

/-- Two request states that agree on every field except possibly the
`Authorization` header, used to state the frame property of the
signing operations. -/
def agreesExceptAuth (a b : Request) : Prop :=
  a.method = b.method ∧ a.escapedPath = b.escapedPath ∧ a.rawQuery = b.rawQuery ∧
    a.hasBody = b.hasBody ∧ a.dateHeader = b.dateHeader ∧
    a.contentTypeHeader = b.contentTypeHeader ∧ a.contentMD5Header = b.contentMD5Header ∧
    a.otherHeaders = b.otherHeaders

/-! ## Concrete requests used to instantiate the theorems -/

/-- A bodyless GET with a `Date` header and no other headers. -/
def reqNoBody : Request :=
  { method := "GET".toList, escapedPath := [], rawQuery := [], hasBody := false,
    dateHeader := "D".toList, contentTypeHeader := [], contentMD5Header := [],
    authorizationHeader := [], otherHeaders := [] }

/-- The same request with an `Authorization` header already set. -/
def reqWithAuth : Request :=
  { reqNoBody with authorizationHeader := "APIAuth a:b".toList }

/-- A request with every field empty. -/
def reqEmpty : Request :=
  { method := [], escapedPath := [], rawQuery := [], hasBody := false,
    dateHeader := [], contentTypeHeader := [], contentMD5Header := [],
    authorizationHeader := [], otherHeaders := [] }

/-- A request with a body and a `Date` header but no `Content-Type`. -/
def reqBodyNoCT : Request :=
  { reqNoBody with method := "POST".toList, hasBody := true }

/-- A request with a body, `Date` and `Content-Type` but no `Content-MD5`. -/
def reqBodyNoMD5 : Request :=
  { reqBodyNoCT with contentTypeHeader := "text/plain".toList }

/-! ## Lemma layer: splitting, the codec, and signature shape -/

theorem goSplit_ne_nil (sep : Char) (l : GoStr) : goSplit sep l ≠ [] := by
  induction l with
  | nil => simp [goSplit]
  | cons c rest ih =>
    rcases h : goSplit sep rest with _ | ⟨t, ts⟩
    · exact absurd h ih
    · rw [goSplit, h]
      by_cases hc : c = sep <;> simp [hc]

theorem goSplit_no_sep (sep : Char) (l : GoStr) (h : sep ∉ l) : goSplit sep l = [l] := by
  induction l with
  | nil => rfl
  | cons c rest ih =>
    rw [goSplit, ih (fun hm => h (List.mem_cons_of_mem _ hm))]
    simp only [if_neg (fun hc : c = sep => h (hc ▸ List.mem_cons_self c rest))]

theorem goSplit_sep_append (sep : Char) (a b : GoStr) (ha : sep ∉ a) :
    goSplit sep (a ++ sep :: b) = a :: goSplit sep b := by
  induction a with
  | nil =>
    rw [List.nil_append, goSplit]
    rcases h : goSplit sep b with _ | ⟨t, ts⟩
    · exact absurd h (goSplit_ne_nil sep b)
    · simp
  | cons c a0 ih =>
    rw [List.cons_append, goSplit, ih (fun hm => ha (List.mem_cons_of_mem _ hm))]
    simp only [if_neg (fun hc : c = sep => ha (hc ▸ List.mem_cons_self c a0))]

theorem goSplit_length (sep : Char) (l : GoStr) :
    (goSplit sep l).length = l.count sep + 1 := by
  induction l with
  | nil => simp [goSplit]
  | cons c rest ih =>
    rw [goSplit]
    rcases h : goSplit sep rest with _ | ⟨t, ts⟩
    · exact absurd h (goSplit_ne_nil sep rest)
    · rw [h] at ih
      by_cases hc : c = sep
      · subst hc
        simp only [if_pos rfl, List.length_cons, List.count_cons_self]
        simp at ih ⊢
        omega
      · simp only [if_neg hc, List.length_cons, List.count_cons_of_ne (fun h2 => hc h2.symm)]
        simpa using ih

theorem apiauthIsPre (x : GoStr) :
    "APIAuth ".toList.isPrefixOf ("APIAuth ".toList ++ x) = true := by
  simp [List.isPrefixOf_iff_prefix]

theorem apiauthDrop8 (x : GoStr) : ("APIAuth ".toList ++ x).drop 8 = x := by
  have h8 : ("APIAuth ".toList).length = 8 := rfl
  rw [← h8, List.drop_left]

theorem authHeaderValue_ne_nil (accessID sig : GoStr) : authHeaderValue accessID sig ≠ [] := by
  simp [authHeaderValue]

theorem Parse_pre (x : GoStr) :
    Parse ("APIAuth ".toList ++ x) =
      match goSplit ':' x with
      | [id, sig] =>
        if id = [] ∨ sig = [] then .error (.malformedHeader ("APIAuth ".toList ++ x))
        else .ok (id, sig)
      | _ => .error (.malformedHeader ("APIAuth ".toList ++ x)) := by
  unfold Parse
  rw [show ("APIAuth ".toList.isPrefixOf ("APIAuth ".toList ++ x)) = true from apiauthIsPre x,
    if_pos rfl, apiauthDrop8]

theorem Parse_authHeaderValue (accessID sig : GoStr) (hid : accessID ≠ []) (hcid : ':' ∉ accessID)
    (hsig : sig ≠ []) (hcsig : ':' ∉ sig) :
    Parse (authHeaderValue accessID sig) = .ok (accessID, sig) := by
  have hps := Parse_pre (accessID ++ ':' :: sig)
  rw [goSplit_sep_append _ _ _ hcid, goSplit_no_sep _ _ hcsig] at hps
  unfold authHeaderValue
  rw [hps]
  simp [hid, hsig]

theorem Parse_authHeaderValue_bad (accessID sig : GoStr) (hbad : accessID = [] ∨ ':' ∈ accessID)
    (hcsig : ':' ∉ sig) :
    Parse (authHeaderValue accessID sig) =
      .error (.malformedHeader (authHeaderValue accessID sig)) := by
  rcases hbad with rfl | hmem
  · have hps := Parse_pre (':' :: sig)
    rw [show (':' :: sig : GoStr) = [] ++ ':' :: sig from rfl,
      goSplit_sep_append _ [] _ (by simp), goSplit_no_sep _ _ hcsig] at hps
    unfold authHeaderValue
    simp only [List.nil_append] at hps ⊢
    rw [hps]
    simp
  · have hlen : 3 ≤ (goSplit ':' (accessID ++ ':' :: sig)).length := by
      rw [goSplit_length]
      have hc : 0 < accessID.count ':' := List.count_pos_iff.mpr hmem
      simp [List.count_append]
      omega
    have hps := Parse_pre (accessID ++ ':' :: sig)
    rcases h : goSplit ':' (accessID ++ ':' :: sig) with _ | ⟨t1, _ | ⟨t2, _ | ⟨t3, ts⟩⟩⟩ <;>
      rw [h] at hlen hps
    · exact absurd h (goSplit_ne_nil _ _)
    · simp at hlen
    · simp at hlen
    · unfold authHeaderValue
      rw [hps]

theorem bytesBE_length (k n : Nat) : (bytesBE k n).length = k := by
  induction k generalizing n with
  | zero => rfl
  | succ k ih => simp [bytesBE, ih]

theorem sha1_length (m : List Nat) : (sha1 m).length = 20 := by
  unfold sha1
  rcases (chunks64 (sha1Pad m) [] 64).foldl (fun h c => sha1Block c h)
      (0x67452301, 0xEFCDAB89, 0x98BADCFE, 0x10325476, 0xC3D2E1F0) with ⟨h0, h1, h2, h3, h4⟩
  simp [bytesBE_length]

theorem hmacSha1_length (key msg : List Nat) : (hmacSha1 key msg).length = 20 := by
  unfold hmacSha1
  exact sha1_length _

theorem b64Char_mem (n : Nat) : b64Char n ∈ b64Alphabet ∨ b64Char n = '=' := by
  by_cases h : n < b64Alphabet.length
  · left
    unfold b64Char
    rw [List.getD_eq_getElem _ _ h]
    exact List.getElem_mem h
  · right
    unfold b64Char
    exact List.getD_eq_default _ _ (le_of_not_lt h)

theorem base64Encode_mem (bs : List Nat) :
    ∀ c ∈ base64Encode bs, c ∈ b64Alphabet ∨ c = '=' := by
  induction bs using base64Encode.induct with
  | case1 => simp [base64Encode]
  | case2 b1 =>
    intro c hc
    simp only [base64Encode, List.mem_cons, List.not_mem_nil, or_false] at hc
    rcases hc with rfl | rfl | rfl | rfl <;>
      first
        | exact b64Char_mem _
        | exact Or.inr rfl
  | case3 b1 b2 =>
    intro c hc
    simp only [base64Encode, List.mem_cons, List.not_mem_nil, or_false] at hc
    rcases hc with rfl | rfl | rfl | rfl <;>
      first
        | exact b64Char_mem _
        | exact Or.inr rfl
  | case4 b1 b2 b3 rest ih =>
    intro c hc
    simp only [base64Encode, List.mem_cons] at hc
    rcases hc with rfl | rfl | rfl | rfl | h <;>
      first
        | exact b64Char_mem _
        | exact ih _ h

theorem base64Encode_length (bs : List Nat) :
    (base64Encode bs).length = 4 * ((bs.length + 2) / 3) := by
  induction bs using base64Encode.induct with
  | case1 => simp [base64Encode]
  | case2 b1 => simp [base64Encode]
  | case3 b1 b2 => simp [base64Encode]
  | case4 b1 b2 b3 rest ih =>
    simp only [base64Encode, List.length_cons, ih, List.length_cons]
    omega

theorem Compute_length (s secret : GoStr) : (Compute s secret).length = 28 := by
  unfold Compute
  rw [base64Encode_length, hmacSha1_length]

theorem Compute_ne_nil (s secret : GoStr) : Compute s secret ≠ [] := by
  intro h
  have := Compute_length s secret
  rw [h] at this
  simp at this

theorem Compute_mem (s secret : GoStr) :
    ∀ c ∈ Compute s secret, c ∈ b64Alphabet ∨ c = '=' := by
  unfold Compute
  exact base64Encode_mem _

theorem colon_notin_Compute (s secret : GoStr) : ':' ∉ Compute s secret := by
  intro h
  rcases Compute_mem s secret ':' h with hmem | heq
  · exact absurd hmem (by decide)
  · exact absurd heq (by decide)

/-! ## Unfolding lemmas for the entry points -/

theorem sufficientHeaders_setAuth (r : Request) (a : GoStr) :
    sufficientHeaders { r with authorizationHeader := a } = sufficientHeaders r := rfl

theorem CanonicalString_setAuth (r : Request) (a : GoStr) :
    CanonicalString { r with authorizationHeader := a } = CanonicalString r := rfl

theorem CanonicalStringWithMethod_setAuth (r : Request) (a : GoStr) :
    CanonicalStringWithMethod { r with authorizationHeader := a } =
      CanonicalStringWithMethod r := rfl

theorem Sign_eq_ok (r : Request) (accessID key : GoStr)
    (hsuf : sufficientHeaders r = none) (hauth : r.authorizationHeader = []) :
    Sign r accessID key =
      (.ok (), { r with authorizationHeader :=
                  authHeaderValue accessID (Compute (CanonicalString r) key) }) := by
  unfold Sign
  rw [hsuf]
  simp [hauth]

theorem SignWithMethod_eq_ok (r : Request) (accessID key : GoStr)
    (hsuf : sufficientHeaders r = none) (hauth : r.authorizationHeader = []) :
    SignWithMethod r accessID key =
      (.ok (), { r with authorizationHeader :=
                  authHeaderValue accessID (Compute (CanonicalStringWithMethod r) key) }) := by
  unfold SignWithMethod
  rw [hsuf]
  simp [hauth]

theorem Verify_signed (r : Request) (accessID key : GoStr)
    (hsuf : sufficientHeaders r = none) (hid : accessID ≠ []) (hcid : ':' ∉ accessID) :
    Verify { r with authorizationHeader :=
              authHeaderValue accessID (Compute (CanonicalString r) key) } key = .ok () := by
  unfold Verify
  rw [sufficientHeaders_setAuth, hsuf]
  simp only
  rw [if_neg (authHeaderValue_ne_nil _ _),
    Parse_authHeaderValue _ _ hid hcid (Compute_ne_nil _ _) (colon_notin_Compute _ _)]
  simp [VerifySignature, CanonicalString_setAuth]

theorem goJoin_two (a b sep : GoStr) : goJoin [a, b] sep = a ++ sep ++ b := by
  simp [goJoin]

theorem goJoin_four (a b c d sep : GoStr) :
    goJoin [a, b, c, d] sep = a ++ sep ++ (b ++ sep ++ (c ++ sep ++ d)) := by
  simp [goJoin]

theorem Verify_parsed (r : Request) (secret accessID sig : GoStr)
    (hsuf : sufficientHeaders r = none) (hne : r.authorizationHeader ≠ [])
    (hparse : Parse r.authorizationHeader = .ok (accessID, sig)) :
    Verify r secret =
      if VerifySignature sig (CanonicalString r) secret
          || VerifySignature sig (CanonicalStringWithMethod r) secret then .ok ()
      else .error .signatureMismatch := by
  unfold Verify
  rw [hsuf]
  simp only
  rw [if_neg hne, hparse]

theorem Verify_wellformed_auth (r : Request) (accessID sig key : GoStr)
    (hid : accessID ≠ []) (hcid : ':' ∉ accessID) (hs : sig ≠ []) (hcs : ':' ∉ sig) :
    Verify { r with authorizationHeader := authHeaderValue accessID sig } key =
      match sufficientHeaders r with
      | some e => .error e
      | none =>
        if VerifySignature sig (CanonicalString r) key
            || VerifySignature sig (CanonicalStringWithMethod r) key then .ok ()
        else .error .signatureMismatch := by
  unfold Verify
  rw [sufficientHeaders_setAuth]
  rcases hsuf : sufficientHeaders r with _ | e
  · simp only
    rw [if_neg (authHeaderValue_ne_nil _ _), Parse_authHeaderValue _ _ hid hcid hs hcs]
    simp only
    rw [CanonicalString_setAuth, CanonicalStringWithMethod_setAuth]
  · rfl

theorem Verify_sign_bad_id (r : Request) (accessID key : GoStr)
    (hsuf : sufficientHeaders r = none) (hauth : r.authorizationHeader = [])
    (hbad : accessID = [] ∨ ':' ∈ accessID) :
    (Sign r accessID key).1 = .ok () ∧
    Parse (Sign r accessID key).2.authorizationHeader =
      .error (.malformedHeader (Sign r accessID key).2.authorizationHeader) ∧
    Verify (Sign r accessID key).2 key =
      .error (.malformedHeader (Sign r accessID key).2.authorizationHeader) := by
  rw [Sign_eq_ok r accessID key hsuf hauth]
  refine ⟨rfl, ?_, ?_⟩
  · show Parse (authHeaderValue accessID (Compute (CanonicalString r) key)) = _
    exact Parse_authHeaderValue_bad _ _ hbad (colon_notin_Compute _ _)
  · unfold Verify
    rw [sufficientHeaders_setAuth, hsuf]
    simp only
    rw [if_neg (authHeaderValue_ne_nil _ _),
      Parse_authHeaderValue_bad _ _ hbad (colon_notin_Compute _ _)]

theorem Verify_signWithMethod_bad_id (r : Request) (accessID key : GoStr)
    (hsuf : sufficientHeaders r = none) (hauth : r.authorizationHeader = [])
    (hbad : accessID = [] ∨ ':' ∈ accessID) :
    (SignWithMethod r accessID key).1 = .ok () ∧
    Parse (SignWithMethod r accessID key).2.authorizationHeader =
      .error (.malformedHeader (SignWithMethod r accessID key).2.authorizationHeader) ∧
    Verify (SignWithMethod r accessID key).2 key =
      .error (.malformedHeader (SignWithMethod r accessID key).2.authorizationHeader) := by
  rw [SignWithMethod_eq_ok r accessID key hsuf hauth]
  refine ⟨rfl, ?_, ?_⟩
  · show Parse (authHeaderValue accessID (Compute (CanonicalStringWithMethod r) key)) = _
    exact Parse_authHeaderValue_bad _ _ hbad (colon_notin_Compute _ _)
  · unfold Verify
    rw [sufficientHeaders_setAuth, hsuf]
    simp only
    rw [if_neg (authHeaderValue_ne_nil _ _),
      Parse_authHeaderValue_bad _ _ hbad (colon_notin_Compute _ _)]

/-! ## The claims -/

/-- C1: for every request whose headers are sufficient and whose
`Authorization` header is present and well-formed, `Verify` succeeds
iff the decoded signature equals `Compute` of the legacy canonical
string or `Compute` of the method-bound canonical string, and when
neither matches it fails with the signature-mismatch error. -/
theorem C1_verify_dual_check (r : Request) (secret accessID sig : GoStr)
    (hsuf : sufficientHeaders r = none)
    (hparse : Parse r.authorizationHeader = .ok (accessID, sig)) :
    (Verify r secret = .ok () ↔
      sig = Compute (CanonicalString r) secret ∨
        sig = Compute (CanonicalStringWithMethod r) secret) ∧
    (sig ≠ Compute (CanonicalString r) secret →
      sig ≠ Compute (CanonicalStringWithMethod r) secret →
      Verify r secret = .error .signatureMismatch) := by
  have hne : r.authorizationHeader ≠ [] := by
    intro h
    rw [h, show Parse ([] : GoStr) = .error (.malformedHeader []) from rfl] at hparse
    simp at hparse
  rw [Verify_parsed r secret accessID sig hsuf hne hparse]
  have hcond : ((VerifySignature sig (CanonicalString r) secret
        || VerifySignature sig (CanonicalStringWithMethod r) secret) = true) ↔
      (sig = Compute (CanonicalString r) secret ∨
        sig = Compute (CanonicalStringWithMethod r) secret) := by
    simp only [Bool.or_eq_true, VerifySignature, beq_iff_eq]
    constructor
    · rintro (h | h)
      · exact Or.inl h.symm
      · exact Or.inr h.symm
    · rintro (h | h)
      · exact Or.inl h.symm
      · exact Or.inr h.symm
  by_cases hc : sig = Compute (CanonicalString r) secret ∨
      sig = Compute (CanonicalStringWithMethod r) secret
  · rw [if_pos (hcond.mpr hc)]
    exact ⟨⟨fun _ => hc, fun _ => rfl⟩, fun h1 h2 => absurd hc (not_or.mpr ⟨h1, h2⟩)⟩
  · rw [if_neg (fun h => hc (hcond.mp h))]
    refine ⟨⟨fun h => ?_, fun h => absurd h hc⟩, fun _ _ => rfl⟩
    simp at h

/-- C1 witness: a concrete sufficient request carrying the well-formed
header `APIAuth a:b`, whose signature token matches neither canonical
variant, is rejected with the signature-mismatch error. -/
theorem C1_witness :
    Verify reqWithAuth "secret".toList = .error .signatureMismatch :=
  (C1_verify_dual_check reqWithAuth "secret".toList "a".toList "b".toList rfl rfl).2
    (by decide) (by decide)

/-- C2 as amended: for every request carrying a `Date` header, no body
and no preexisting `Authorization` header, and every non-empty
accessID that contains no colon, `Sign` succeeds and a subsequent
`Verify` with the same secret succeeds. -/
theorem C2_sign_verify_roundtrip (r : Request) (accessID key : GoStr)
    (hdate : r.dateHeader ≠ []) (hbody : r.hasBody = false)
    (hauth : r.authorizationHeader = [])
    (hid : accessID ≠ []) (hcid : ':' ∉ accessID) :
    (Sign r accessID key).1 = .ok () ∧ Verify (Sign r accessID key).2 key = .ok () := by
  have hsuf : sufficientHeaders r = none := by
    unfold sufficientHeaders
    rw [if_neg hdate, hbody]
    simp
  rw [Sign_eq_ok r accessID key hsuf hauth]
  exact ⟨rfl, Verify_signed r accessID key hsuf hid hcid⟩

/-- C2 counterexample: the accessID `":"` is non-empty, and on a
request with a `Date` header, no body and no preexisting
`Authorization` header, `Sign` succeeds, yet the subsequent `Verify`
with the same key rejects the request it just signed (the embedded
colon makes the header split into three tokens). -/
theorem C2_counterexample :
    ([':'] : GoStr) ≠ [] ∧ reqNoBody.dateHeader ≠ [] ∧ reqNoBody.hasBody = false ∧
    reqNoBody.authorizationHeader = [] ∧
    (Sign reqNoBody [':'] "k".toList).1 = .ok () ∧
    Verify (Sign reqNoBody [':'] "k".toList).2 "k".toList ≠ .ok () := by
  refine ⟨by decide, by decide, rfl, rfl,
    (Verify_sign_bad_id reqNoBody [':'] "k".toList rfl rfl (Or.inr (by decide))).1, ?_⟩
  rw [(Verify_sign_bad_id reqNoBody [':'] "k".toList rfl rfl (Or.inr (by decide))).2.2]
  simp

/-- C2 witness: the amended round trip at a concrete request and
credential. -/
theorem C2_witness :
    (Sign reqNoBody "me".toList "secret".toList).1 = .ok () ∧
    Verify (Sign reqNoBody "me".toList "secret".toList).2 "secret".toList = .ok () :=
  C2_sign_verify_roundtrip reqNoBody "me".toList "secret".toList (by decide) rfl rfl
    (by decide) (by decide)

/-- C3: the URI field of the canonical string is never empty: an empty
escaped path is rendered as `/`, the query is appended as
`path?query` exactly when the raw query is non-empty, and the request
with empty path, no query and no headers yields `,,/,`. -/
theorem C3_uri_never_empty (r : Request) :
    ((if r.escapedPath = [] then "/".toList else r.escapedPath) ++
        (if r.rawQuery = [] then [] else '?' :: r.rawQuery) ≠ [] ∧
      CanonicalString r =
        r.contentTypeHeader ++ ',' ::
          (r.contentMD5Header ++ ',' ::
            (((if r.escapedPath = [] then "/".toList else r.escapedPath) ++
              (if r.rawQuery = [] then [] else '?' :: r.rawQuery)) ++
                ',' :: r.dateHeader))) ∧
    (r.escapedPath = [] → r.rawQuery = [] → r.contentTypeHeader = [] →
      r.contentMD5Header = [] → r.dateHeader = [] → CanonicalString r = ",,/,".toList) := by
  refine ⟨⟨?_, ?_⟩, ?_⟩
  · by_cases hp : r.escapedPath = [] <;> by_cases hq : r.rawQuery = [] <;> simp [hp, hq]
  · unfold CanonicalString
    by_cases hp : r.escapedPath = [] <;> by_cases hq : r.rawQuery = [] <;>
      simp [hp, hq, goJoin_four, List.append_assoc]
  · intro h1 h2 h3 h4 h5
    unfold CanonicalString
    rw [h1, h2, h3, h4, h5]
    rfl

/-- C3 witness: the all-empty request, whose canonical string is
exactly `,,/,`. -/
theorem C3_witness :
    ((if reqEmpty.escapedPath = [] then "/".toList else reqEmpty.escapedPath) ++
        (if reqEmpty.rawQuery = [] then [] else '?' :: reqEmpty.rawQuery) ≠ [] ∧
      CanonicalString reqEmpty =
        reqEmpty.contentTypeHeader ++ ',' ::
          (reqEmpty.contentMD5Header ++ ',' ::
            (((if reqEmpty.escapedPath = [] then "/".toList else reqEmpty.escapedPath) ++
              (if reqEmpty.rawQuery = [] then [] else '?' :: reqEmpty.rawQuery)) ++
                ',' :: reqEmpty.dateHeader))) ∧
    CanonicalString reqEmpty = ",,/,".toList :=
  ⟨(C3_uri_never_empty reqEmpty).1, (C3_uri_never_empty reqEmpty).2 rfl rfl rfl rfl rfl⟩

/-- C4: `Parse` succeeds exactly on values with the literal prefix
`APIAuth ` whose remainder splits on `:` into exactly two non-empty
tokens, returning those tokens; on every other value it fails with the
malformed-header error. -/
theorem C4_parse_wellformed (header : GoStr) :
    (("APIAuth ".toList.isPrefixOf header = true ∧
        (goSplit ':' (header.drop 8)).length = 2 ∧
        (goSplit ':' (header.drop 8)).getD 0 [] ≠ [] ∧
        (goSplit ':' (header.drop 8)).getD 1 [] ≠ []) →
      Parse header =
        .ok ((goSplit ':' (header.drop 8)).getD 0 [], (goSplit ':' (header.drop 8)).getD 1 [])) ∧
    (¬ ("APIAuth ".toList.isPrefixOf header = true ∧
        (goSplit ':' (header.drop 8)).length = 2 ∧
        (goSplit ':' (header.drop 8)).getD 0 [] ≠ [] ∧
        (goSplit ':' (header.drop 8)).getD 1 [] ≠ []) →
      Parse header = .error (.malformedHeader header)) := by
  constructor
  · rintro ⟨hpre, hlen, h0, h1⟩
    rcases h : goSplit ':' (header.drop 8) with _ | ⟨t1, _ | ⟨t2, _ | ⟨t3, ts⟩⟩⟩
    · rw [h] at hlen
      simp at hlen
    · rw [h] at hlen
      simp at hlen
    · rw [h] at h0 h1
      simp at h0 h1
      unfold Parse
      rw [if_pos hpre, h]
      simp [h0, h1]
    · rw [h] at hlen
      simp at hlen
  · intro hw
    by_cases hpre : "APIAuth ".toList.isPrefixOf header = true
    · rcases h : goSplit ':' (header.drop 8) with _ | ⟨t1, _ | ⟨t2, _ | ⟨t3, ts⟩⟩⟩
      · exact absurd h (goSplit_ne_nil _ _)
      · unfold Parse
        rw [if_pos hpre, h]
      · have hor : t1 = [] ∨ t2 = [] := by
          by_contra hcon
          push_neg at hcon
          apply hw
          refine ⟨hpre, ?_, ?_, ?_⟩
          · rw [h]
            rfl
          · rw [h]
            simpa using hcon.1
          · rw [h]
            simpa using hcon.2
        unfold Parse
        rw [if_pos hpre, h]
        simp [hor]
      · unfold Parse
        rw [if_pos hpre, h]
    · unfold Parse
      rw [if_neg hpre]

/-- C4 witness: the documented accept and reject examples. -/
theorem C4_witness :
    Parse "APIAuth me:sig".toList = .ok ("me".toList, "sig".toList) ∧
    Parse "APIAuth nosig:".toList = .error (.malformedHeader "APIAuth nosig:".toList) ∧
    Parse "NotAPIAuth here".toList = .error (.malformedHeader "NotAPIAuth here".toList) :=
  ⟨(C4_parse_wellformed "APIAuth me:sig".toList).1 ⟨by decide, by decide, by decide, by decide⟩,
    (C4_parse_wellformed "APIAuth nosig:".toList).2 (by decide),
    (C4_parse_wellformed "NotAPIAuth here".toList).2 (by decide)⟩

/-- C5: `Sign` checks header sufficiency first, returning the
checker's error unchanged in its order (missing `Date`; with a body,
missing `Content-Type` then missing `Content-MD5`), and only once the
check passes does a preexisting non-empty `Authorization` header make
it fail with the already-present error. -/
theorem C5_sign_error_order (r : Request) (accessID key : GoStr) :
    (r.dateHeader = [] → (Sign r accessID key).1 = .error .missingDate) ∧
    (r.dateHeader ≠ [] → r.hasBody = true → r.contentTypeHeader = [] →
      (Sign r accessID key).1 = .error .missingContentType) ∧
    (r.dateHeader ≠ [] → r.hasBody = true → r.contentTypeHeader ≠ [] →
      r.contentMD5Header = [] → (Sign r accessID key).1 = .error .missingContentMD5) ∧
    (sufficientHeaders r = none → r.authorizationHeader ≠ [] →
      (Sign r accessID key).1 = .error .authorizationAlreadyPresent) := by
  refine ⟨fun h1 => ?_, fun h1 h2 h3 => ?_, fun h1 h2 h3 h4 => ?_, fun h1 h2 => ?_⟩ <;>
    unfold Sign
  · rw [show sufficientHeaders r = some .missingDate by unfold sufficientHeaders; rw [if_pos h1]]
  · rw [show sufficientHeaders r = some .missingContentType by
      unfold sufficientHeaders; rw [if_neg h1, if_pos h2, if_pos h3]]
  · rw [show sufficientHeaders r = some .missingContentMD5 by
      unfold sufficientHeaders; rw [if_neg h1, if_pos h2, if_neg h3, if_pos h4]]
  · rw [h1]
    simp [h2]

/-- C5 witness: the four error branches at concrete requests. -/
theorem C5_witness :
    (Sign reqEmpty "me".toList "k".toList).1 = .error .missingDate ∧
    (Sign reqBodyNoCT "me".toList "k".toList).1 = .error .missingContentType ∧
    (Sign reqBodyNoMD5 "me".toList "k".toList).1 = .error .missingContentMD5 ∧
    (Sign reqWithAuth "me".toList "k".toList).1 = .error .authorizationAlreadyPresent :=
  ⟨(C5_sign_error_order reqEmpty "me".toList "k".toList).1 rfl,
    (C5_sign_error_order reqBodyNoCT "me".toList "k".toList).2.1 (by decide) rfl rfl,
    (C5_sign_error_order reqBodyNoMD5 "me".toList "k".toList).2.2.1 (by decide) rfl
      (by decide) rfl,
    (C5_sign_error_order reqWithAuth "me".toList "k".toList).2.2.2 rfl (by decide)⟩

/-- C6: the only field `Sign` and `SignWithMethod` may change is the
`Authorization` header; on any error the request is returned entirely
unchanged, and on success the `Authorization` header is set to the
encoded credential. -/
theorem C6_frame (r : Request) (accessID key : GoStr) :
    agreesExceptAuth (Sign r accessID key).2 r ∧
    agreesExceptAuth (SignWithMethod r accessID key).2 r ∧
    (∀ e, (Sign r accessID key).1 = .error e → (Sign r accessID key).2 = r) ∧
    (∀ e, (SignWithMethod r accessID key).1 = .error e → (SignWithMethod r accessID key).2 = r) ∧
    ((Sign r accessID key).1 = .ok () →
      (Sign r accessID key).2.authorizationHeader =
        authHeaderValue accessID (Compute (CanonicalString r) key)) ∧
    ((SignWithMethod r accessID key).1 = .ok () →
      (SignWithMethod r accessID key).2.authorizationHeader =
        authHeaderValue accessID (Compute (CanonicalStringWithMethod r) key)) := by
  rcases hs : sufficientHeaders r with _ | e <;>
    by_cases hauth : r.authorizationHeader = [] <;>
      unfold Sign SignWithMethod <;> rw [hs] <;>
        simp [hauth, agreesExceptAuth]

/-- C6 witness: signing a request that already carries an
`Authorization` header leaves it entirely unchanged. -/
theorem C6_witness :
    agreesExceptAuth (Sign reqWithAuth "me".toList "k".toList).2 reqWithAuth ∧
    (Sign reqWithAuth "me".toList "k".toList).2 = reqWithAuth ∧
    (SignWithMethod reqWithAuth "me".toList "k".toList).2 = reqWithAuth :=
  ⟨(C6_frame reqWithAuth "me".toList "k".toList).1,
    (C6_frame reqWithAuth "me".toList "k".toList).2.2.1 .authorizationAlreadyPresent rfl,
    (C6_frame reqWithAuth "me".toList "k".toList).2.2.2.1 .authorizationAlreadyPresent rfl⟩

/-- C7: the method-bound canonical string is the upper-cased method
prepended, as the first comma-separated field, to the legacy canonical
string. -/
theorem C7_method_prepended (r : Request) :
    CanonicalStringWithMethod r = goToUpper r.method ++ ',' :: CanonicalString r := by
  unfold CanonicalStringWithMethod
  rw [goJoin_two]
  simp [List.append_assoc]

/-- C8: the outcome of `Verify` does not depend on the access
identifier token of a well-formed `Authorization` header: two requests
identical except for distinct non-empty, colon-free accessID tokens in
front of the same signature token verify to the same result. -/
theorem C8_accessID_irrelevant (r : Request) (id1 id2 sig key : GoStr)
    (h1 : id1 ≠ []) (h2 : id2 ≠ []) (hc1 : ':' ∉ id1) (hc2 : ':' ∉ id2)
    (hs : sig ≠ []) (hcs : ':' ∉ sig) :
    Verify { r with authorizationHeader := authHeaderValue id1 sig } key =
      Verify { r with authorizationHeader := authHeaderValue id2 sig } key :=
  (Verify_wellformed_auth r id1 sig key h1 hc1 hs hcs).trans
    (Verify_wellformed_auth r id2 sig key h2 hc2 hs hcs).symm

/-- C8 witness: the same signature token behind two different accessID
tokens yields identical verification results. -/
theorem C8_witness :
    Verify { reqNoBody with authorizationHeader := authHeaderValue "a".toList "s".toList }
        "k".toList =
      Verify { reqNoBody with authorizationHeader := authHeaderValue "bb".toList "s".toList }
        "k".toList :=
  C8_accessID_irrelevant reqNoBody "a".toList "bb".toList "s".toList "k".toList
    (by decide) (by decide) (by decide) (by decide) (by decide) (by decide)

/-- C9: `Compute` always returns a 28-character string over the
standard base64 alphabet with `=` padding, hence never empty and never
containing a colon, so the `Authorization` value produced by a
successful `Sign` with a non-empty, colon-free accessID decodes back
via `Parse` to that accessID and signature. -/
theorem C9_signature_shape (s secret : GoStr) (r : Request) (accessID key : GoStr) :
    (Compute s secret).length = 28 ∧
    (∀ c ∈ Compute s secret, c ∈ b64Alphabet ∨ c = '=') ∧
    Compute s secret ≠ [] ∧
    ':' ∉ Compute s secret ∧
    (accessID ≠ [] → ':' ∉ accessID → (Sign r accessID key).1 = .ok () →
      Parse (Sign r accessID key).2.authorizationHeader =
        .ok (accessID, Compute (CanonicalString r) key)) := by
  refine ⟨Compute_length s secret, Compute_mem s secret, Compute_ne_nil s secret,
    colon_notin_Compute s secret, ?_⟩
  intro hid hcid hok
  have hsuf : sufficientHeaders r = none := by
    rcases h : sufficientHeaders r with _ | e
    · rfl
    · unfold Sign at hok
      rw [h] at hok
      simp at hok
  have hauth : r.authorizationHeader = [] := by
    by_contra hne
    unfold Sign at hok
    rw [hsuf] at hok
    simp [hne] at hok
  rw [Sign_eq_ok r accessID key hsuf hauth]
  exact Parse_authHeaderValue _ _ hid hcid (Compute_ne_nil _ _) (colon_notin_Compute _ _)

/-- C9 witness: the shape facts at a concrete canonical string and
secret, and the decode round trip after a concrete successful `Sign`. -/
theorem C9_witness :
    (Compute "x".toList "k".toList).length = 28 ∧
    Compute "x".toList "k".toList ≠ [] ∧
    ':' ∉ Compute "x".toList "k".toList ∧
    Parse (Sign reqNoBody "me".toList "key".toList).2.authorizationHeader =
      .ok ("me".toList, Compute (CanonicalString reqNoBody) "key".toList) := by
  have h := C9_signature_shape "x".toList "k".toList reqNoBody "me".toList "key".toList
  exact ⟨h.1, h.2.2.1, h.2.2.2.1, h.2.2.2.2 (by decide) (by decide) rfl⟩

/-- C10: neither `Sign` nor `SignWithMethod` validates the accessID:
with an empty or colon-carrying accessID each still succeeds on a
request with sufficient headers and no preexisting `Authorization`
header, but the resulting header value is rejected by `Parse` as
malformed, so `Verify` fails on the request just signed. -/
theorem C10_no_accessID_validation (r : Request) (accessID key : GoStr)
    (hsuf : sufficientHeaders r = none) (hauth : r.authorizationHeader = [])
    (hbad : accessID = [] ∨ ':' ∈ accessID) :
    ((Sign r accessID key).1 = .ok () ∧
      Parse (Sign r accessID key).2.authorizationHeader =
        .error (.malformedHeader (Sign r accessID key).2.authorizationHeader) ∧
      Verify (Sign r accessID key).2 key =
        .error (.malformedHeader (Sign r accessID key).2.authorizationHeader)) ∧
    ((SignWithMethod r accessID key).1 = .ok () ∧
      Parse (SignWithMethod r accessID key).2.authorizationHeader =
        .error (.malformedHeader (SignWithMethod r accessID key).2.authorizationHeader) ∧
      Verify (SignWithMethod r accessID key).2 key =
        .error (.malformedHeader (SignWithMethod r accessID key).2.authorizationHeader)) :=
  ⟨Verify_sign_bad_id r accessID key hsuf hauth hbad,
    Verify_signWithMethod_bad_id r accessID key hsuf hauth hbad⟩

/-- C10 witness: signing with the colon-carrying accessID `a:b`, via
`Sign` and via `SignWithMethod`, succeeds, and each signed request
then fails verification as malformed. -/
theorem C10_witness :
    ((Sign reqNoBody "a:b".toList "k".toList).1 = .ok () ∧
      Parse (Sign reqNoBody "a:b".toList "k".toList).2.authorizationHeader =
        .error (.malformedHeader (Sign reqNoBody "a:b".toList "k".toList).2.authorizationHeader) ∧
      Verify (Sign reqNoBody "a:b".toList "k".toList).2 "k".toList =
        .error (.malformedHeader (Sign reqNoBody "a:b".toList "k".toList).2.authorizationHeader)) ∧
    ((SignWithMethod reqNoBody "a:b".toList "k".toList).1 = .ok () ∧
      Parse (SignWithMethod reqNoBody "a:b".toList "k".toList).2.authorizationHeader =
        .error (.malformedHeader
          (SignWithMethod reqNoBody "a:b".toList "k".toList).2.authorizationHeader) ∧
      Verify (SignWithMethod reqNoBody "a:b".toList "k".toList).2 "k".toList =
        .error (.malformedHeader
          (SignWithMethod reqNoBody "a:b".toList "k".toList).2.authorizationHeader)) :=
  C10_no_accessID_validation reqNoBody "a:b".toList "k".toList rfl rfl (Or.inr (by decide))

end Apiauth
